import Mathlib

/-!
# Read-only zstd-seekable VFS (`zstd_rovfs.c`): a shallow embedding

The file methods and the two byte-source callbacks of `zstd_rovfs.c` are
embedded as pure functions over an explicit handle record.  Calls that leave
the translation unit (the seekable decoder, the inner VFS, the allocator) are
recorded, in program order, in a list of `Call`s next to the value returned.

Integers: C `int` is 32 bits, `sqlite3_int64`/`long long` 64 bits signed and
`size_t`/`unsigned long long` 64 bits unsigned.  Values live in `Int`/`Nat`;
every conversion and every arithmetic result is reduced explicitly with
`toInt32`, `toInt64`, `toSizeT`.  The embedding is of the `NDEBUG` build:
`assert` lines produce no code, and the conditions they name are kept as
plain propositions where a statement refers to them.
-/

namespace ZstdRoVfs

/-! ## Result codes and open flags (`sqlite3.h`), origins (`stdio.h`)

These headers are not part of the repository; the values are the ones they
fix.  The statements below use the result codes only through their being
distinct, and the open flags through the bit each one occupies. -/

def SQLITE_OK : Int := 0
def SQLITE_NOMEM : Int := 7
def SQLITE_READONLY : Int := 8
def SQLITE_IOERR : Int := 10
def SQLITE_CORRUPT : Int := 11
def SQLITE_CANTOPEN : Int := 14
/-- Extended code `SQLITE_IOERR | (1<<8)`. -/
def SQLITE_IOERR_READ : Int := 266
/-- Extended code `SQLITE_IOERR | (2<<8)`. -/
def SQLITE_IOERR_SHORT_READ : Int := 522

def SQLITE_OPEN_READONLY : Nat := 0x00000001
def SQLITE_OPEN_READWRITE : Nat := 0x00000002
def SQLITE_OPEN_CREATE : Nat := 0x00000004
def SQLITE_OPEN_MAIN_DB : Nat := 0x00000100

def SEEK_SET : Int := 0
def SEEK_CUR : Int := 1
def SEEK_END : Int := 2

/-! ## Machine integers -/

def INT_MAX : Int := 2147483647
def INT64_MIN : Int := -9223372036854775808
def INT64_MAX : Int := 9223372036854775807

/-- Conversion to a signed two's-complement integer of `w` bits. -/
def wrapSigned (w : Nat) (x : Int) : Int :=
  (x + 2 ^ (w - 1)) % 2 ^ w - 2 ^ (w - 1)

/-- Conversion to `int`. -/
def toInt32 (x : Int) : Int := wrapSigned 32 x

/-- Conversion to `sqlite3_int64` / `long long`. -/
def toInt64 (x : Int) : Int := wrapSigned 64 x

/-- Conversion to `size_t` / `unsigned long long`. -/
def toSizeT (x : Int) : Nat := (x % 2 ^ 64).toNat

/-! ## Data model -/

/-- One row of the decoder's frame index: logical offset and logical size. -/
structure Frame where
  dOffset : Nat
  dSize : Nat
  deriving DecidableEq, Repr

/-- The seekable decoder context (`ZSTD_seekable`), an object of the external
zstd library (`zstd_seekable.h`, not part of the repository).  Only its frame
index is observable through the accessor calls the VFS makes, so the context
is held as that index. -/
structure ZSTD_seekable where
  frames : List Frame
  deriving DecidableEq, Repr

/-- The object `p->origfile` points to: an inner-VFS file.  `pMethods` is
`true` when its method table pointer is non-null, that is, when the inner
`xOpen` has opened it. -/
structure sqlite3_file where
  pMethods : Bool
  deriving DecidableEq, Repr

/-- The handle `zstd_ro_file`.  Pointers are `Option`s (`none` is the null
pointer); `base_pMethods` says whether `base.pMethods` has been set to
`zstd_ro_methods`. -/
structure zstd_ro_file where
  base_pMethods : Bool
  origfile : Option sqlite3_file
  origfile_size : Int
  origfile_pos : Int
  decompressor : Option ZSTD_seekable
  deriving DecidableEq, Repr

/-- Calls that leave `zstd_rovfs.c`. -/
inductive Call where
  | ZSTD_seekable_decompress (len : Nat) (offset : Nat)
  | ZSTD_seekable_free
  | ZSTD_seekable_create
  | ZSTD_seekable_initAdvanced
  | sqlite3_malloc
  | sqlite3_free
  | xOpen (flags : Nat)
  | xFileSize
  | xClose
  | xRead (iAmt : Int) (iOfst : Int)
  deriving DecidableEq, Repr

/-! ## External library: the seekable decoder -/

/-- `ZSTD_seekable_getNumFrames` of the external library: the number of rows
of the frame index. -/
def ZSTD_seekable_getNumFrames (zs : ZSTD_seekable) : Nat :=
  zs.frames.length

/-- `ZSTD_seekable_getFrameDecompressedOffset` of the external library: the
logical offset of frame `i`. -/
def ZSTD_seekable_getFrameDecompressedOffset (zs : ZSTD_seekable) (i : Nat) : Nat :=
  (zs.frames.getD i ⟨0, 0⟩).dOffset

/-- `ZSTD_seekable_getFrameDecompressedSize` of the external library: the
logical size of frame `i`. -/
def ZSTD_seekable_getFrameDecompressedSize (zs : ZSTD_seekable) (i : Nat) : Nat :=
  (zs.frames.getD i ⟨0, 0⟩).dSize

/-- What one call of `ZSTD_seekable_decompress` leaves behind: its `size_t`
result, the destination buffer, the handle cursor after the pulls and
repositions it issued through the byte-source bridge, and those store calls. -/
structure DecompressOut where
  zrc : Nat
  dst : List Nat
  origfile_pos : Int
  calls : List Call

/-- The behaviour of `ZSTD_seekable_decompress`, a parameter of the
embedding: decoder context, handle cursor on entry, destination buffer,
length, logical offset. -/
abbrev Decompress :=
  Option ZSTD_seekable → Int → List Nat → Nat → Nat → DecompressOut

/-! ## Buffers -/

/-- `memset(&buf[start], c, n)` on a buffer held as a list of bytes. -/
def memset : List Nat → Nat → Nat → Nat → List Nat
  | [], _, _, _ => []
  | b :: bs, 0, _, 0 => b :: bs
  | _ :: bs, 0, c, n + 1 => c :: memset bs 0 c n
  | b :: bs, s + 1, c, n => b :: memset bs s c n

/-! ## File methods -/

/-- Result of `zstd_ro_Read`: return code, caller's buffer, handle, external calls. -/
structure ReadOut where
  rc : Int
  zBuf : List Nat
  file : zstd_ro_file
  calls : List Call

/-- `zstd_ro_Read`.  `zrc` and `(size_t)iAmt` are compared as `size_t`. -/
def zstd_ro_Read (dec : Decompress) (p : zstd_ro_file) (zBuf : List Nat)
    (iAmt : Int) (iOfst : Int) : ReadOut :=
  if iAmt < 0 ∨ iOfst < 0 then
    ⟨SQLITE_IOERR_READ, zBuf, p, []⟩
  else
    let r := dec p.decompressor p.origfile_pos zBuf (toSizeT iAmt) (toSizeT iOfst)
    let p1 := { p with origfile_pos := r.origfile_pos }
    let calls := Call.ZSTD_seekable_decompress (toSizeT iAmt) (toSizeT iOfst) :: r.calls
    if r.zrc = toSizeT iAmt then
      ⟨SQLITE_OK, r.dst, p1, calls⟩
    else if r.zrc < toSizeT iAmt then
      ⟨SQLITE_IOERR_SHORT_READ, memset r.dst r.zrc 0 (toSizeT iAmt - r.zrc), p1, calls⟩
    else
      ⟨SQLITE_IOERR_READ, r.dst, p1, calls⟩

/-- `zstd_ro_Write`. -/
def zstd_ro_Write (p : zstd_ro_file) (_z : List Nat) (_iAmt : Int) (_iOfst : Int) :
    Int × zstd_ro_file :=
  (SQLITE_READONLY, p)

/-- `zstd_ro_Truncate`. -/
def zstd_ro_Truncate (p : zstd_ro_file) (_size : Int) : Int × zstd_ro_file :=
  (SQLITE_READONLY, p)

/-- `zstd_ro_Sync`. -/
def zstd_ro_Sync (p : zstd_ro_file) (_flags : Int) : Int × zstd_ro_file :=
  (SQLITE_OK, p)

/-- `zstd_ro_FileSize`: return code and the value stored through `pSize`.
The sum is formed in `unsigned long long` and stored into a `sqlite3_int64`.
The accessors are called on `p->decompressor`; the handle is open, so the
context is taken from the `Option`, the empty context standing for a null
pointer. -/
def zstd_ro_FileSize (p : zstd_ro_file) : Int × Int :=
  let zs := p.decompressor.getD ⟨[]⟩
  let num_frames := ZSTD_seekable_getNumFrames zs
  if num_frames ≠ 0 then
    (SQLITE_OK,
      toInt64 ((ZSTD_seekable_getFrameDecompressedOffset zs (num_frames - 1) +
        ZSTD_seekable_getFrameDecompressedSize zs (num_frames - 1)) % 2 ^ 64 : Nat))
  else
    (SQLITE_OK, 0)

/-! ## Byte-source bridge -/

/-- The behaviour of the inner file's `xRead`, a parameter of the embedding:
buffer, `iAmt`, `iOfst` give a return code and the buffer afterwards. -/
abbrev XRead := List Nat → Int → Int → Int × List Nat

/-- Result of the pull callback: returned `int`, buffer, handle, external calls. -/
structure PullOut where
  ret : Int
  buffer : List Nat
  file : zstd_ro_file
  calls : List Call

/-- `ZSTD_seekable_read_sqlite3_file`.  `n` is a `size_t`; `(int)n` and the
initialiser of `int ans` are conversions to `int`; `origfile_pos += n` is
formed in 64 unsigned bits and stored back into the signed field, which gives
the same value as converting the exact sum.  The two `assert` lines (same
thread as the last reposition; `origfile_pos + n > origfile_size` in the
short-read branch) are no code in this build. -/
def ZSTD_seekable_read_sqlite3_file (xRead : XRead) (p : zstd_ro_file)
    (buffer : List Nat) (n : Nat) : PullOut :=
  let r := xRead buffer (toInt32 n) p.origfile_pos
  let calls := [Call.xRead (toInt32 n) p.origfile_pos]
  if r.1 = SQLITE_IOERR_SHORT_READ then
    let ans := toInt32 (if p.origfile_pos < p.origfile_size
      then toInt64 (p.origfile_size - p.origfile_pos) else 0)
    ⟨ans, r.2, { p with origfile_pos := toInt64 (p.origfile_pos + ans) }, calls⟩
  else if r.1 = SQLITE_OK then
    ⟨toInt32 n, r.2, { p with origfile_pos := toInt64 (p.origfile_pos + n) }, calls⟩
  else
    ⟨-1, r.2, p, calls⟩

/-- `ZSTD_seekable_seek_sqlite3_file`: returned `int` and handle.  Sums of
two signed 64-bit values are reduced to 64 bits.  The `assert` that records
the calling thread and the `assert(0)` of the last branch are no code in this
build, in which the handle has no `seek_thread` field. -/
def ZSTD_seekable_seek_sqlite3_file (p : zstd_ro_file) (offset : Int) (origin : Int) :
    Int × zstd_ro_file :=
  if origin = SEEK_SET ∧ offset ≥ 0 then
    (0, { p with origfile_pos := offset })
  else if origin = SEEK_CUR ∧ toInt64 (p.origfile_pos + offset) ≥ 0 then
    (0, { p with origfile_pos := toInt64 (p.origfile_pos + offset) })
  else if origin = SEEK_END ∧ toInt64 (p.origfile_size + offset) ≥ 0 then
    (0, { p with origfile_pos := toInt64 (p.origfile_size + offset) })
  else
    (-1, p)

/-! ## Open and close -/

/-- `ZSTD_isError` (zstd `error_private.h`): a `size_t` above
`(size_t)-ZSTD_error_maxCode`, with `ZSTD_error_maxCode = 120`. -/
def ZSTD_isError (code : Nat) : Bool := decide (code > 2 ^ 64 - 120)

/-- What the collaborators of `zstd_ro_Open` answer during one call: the
allocator, the inner VFS (`xOpen`, then `xFileSize` on the opened file) and
the decoder library (`ZSTD_seekable_create`, `ZSTD_seekable_initAdvanced`). -/
structure OpenEnv where
  /-- `sqlite3_malloc` returned a non-null block. -/
  malloc_ok : Bool
  /-- Return code of the inner `xOpen`. -/
  xOpen_rc : Int
  /-- The inner `xOpen` left `origfile->pMethods` non-null. -/
  xOpen_pMethods : Bool
  /-- Return code of the inner `xFileSize`. -/
  xFileSize_rc : Int
  /-- Value the inner `xFileSize` left in `origfile_size`. -/
  xFileSize_size : Int
  /-- `ZSTD_seekable_create` returned a non-null context. -/
  create_ok : Bool
  /-- Result of `ZSTD_seekable_initAdvanced`. -/
  init_zrc : Nat
  /-- The decoder context after `ZSTD_seekable_initAdvanced`. -/
  init_decoder : ZSTD_seekable
  /-- The handle cursor after the pulls and repositions of initialisation. -/
  init_pos : Int

/-- Result of `zstd_ro_Open`: return code, handle, external calls. -/
structure OpenOut where
  rc : Int
  file : zstd_ro_file
  calls : List Call

/-- `zstd_ro_Open`.  `flags` is the bit pattern of the `int` argument.  The
path and `pOutFlags` are only handed through to the inner `xOpen`. -/
def zstd_ro_Open (env : OpenEnv) (p : zstd_ro_file) (flags : Nat) : OpenOut :=
  if flags &&& SQLITE_OPEN_READONLY = 0 ∨
      flags &&& (SQLITE_OPEN_READWRITE ||| SQLITE_OPEN_CREATE) ≠ 0 then
    ⟨SQLITE_READONLY, p, []⟩
  else if flags &&& SQLITE_OPEN_MAIN_DB = 0 then
    ⟨SQLITE_CANTOPEN, p, []⟩
  else
    let p0 : zstd_ro_file := ⟨true, none, 0, 0, none⟩
    if ¬ env.malloc_ok then
      ⟨SQLITE_NOMEM, p0, [Call.sqlite3_malloc]⟩
    else
      let p1 := { p0 with origfile := some ⟨env.xOpen_pMethods⟩ }
      if env.xOpen_rc ≠ SQLITE_OK then
        ⟨env.xOpen_rc, p1, [Call.sqlite3_malloc, Call.xOpen flags]⟩
      else
        let p2 := { p1 with origfile_size := env.xFileSize_size }
        if env.xFileSize_rc ≠ SQLITE_OK then
          ⟨env.xFileSize_rc, p2, [Call.sqlite3_malloc, Call.xOpen flags, Call.xFileSize]⟩
        else if ¬ env.create_ok then
          ⟨SQLITE_NOMEM, p2,
            [Call.sqlite3_malloc, Call.xOpen flags, Call.xFileSize, Call.ZSTD_seekable_create]⟩
        else
          ⟨if ZSTD_isError env.init_zrc then SQLITE_CORRUPT else SQLITE_OK,
            { p2 with decompressor := some env.init_decoder, origfile_pos := env.init_pos },
            [Call.sqlite3_malloc, Call.xOpen flags, Call.xFileSize, Call.ZSTD_seekable_create,
              Call.ZSTD_seekable_initAdvanced]⟩

/-- Result of `zstd_ro_Close`: return code, handle, external calls. -/
structure CloseOut where
  rc : Int
  file : zstd_ro_file
  calls : List Call

/-- `zstd_ro_Close`. -/
def zstd_ro_Close (p : zstd_ro_file) : CloseOut :=
  let s1 : zstd_ro_file × List Call :=
    match p.decompressor with
    | some _ => ({ p with decompressor := none }, [Call.ZSTD_seekable_free])
    | none => (p, [])
  let s2 : zstd_ro_file × List Call :=
    match s1.1.origfile with
    | some f =>
      ({ s1.1 with origfile := none },
        s1.2 ++ (if f.pMethods then [Call.xClose] else []) ++ [Call.sqlite3_free])
    | none => s1
  ⟨SQLITE_OK, s2.1, s2.2⟩

/-! ## Vocabulary of the statements -/

/-- The frames of an index are contiguous from logical offset `o`: each one
starts where the one before it ends. -/
def contiguousFrom : Nat → List Frame → Bool
  | _, [] => true
  | o, f :: fs => decide (f.dOffset = o) && contiguousFrom (o + f.dSize) fs

/-- Sum of the logical sizes of all frames. -/
def totalSize (fs : List Frame) : Nat := (fs.map Frame.dSize).sum

/-- The base position an origin names: 0 for `SEEK_SET`, the cursor for
`SEEK_CUR`, the memoised store length for `SEEK_END`, nothing otherwise. -/
def seekBase (p : zstd_ro_file) (origin : Int) : Option Int :=
  if origin = SEEK_SET then some 0
  else if origin = SEEK_CUR then some p.origfile_pos
  else if origin = SEEK_END then some p.origfile_size
  else none

/-! ## Sample collaborators -/

/-- A decoder that serves reads from a fully decompressed logical file `ref`:
it writes the in-range part of `[offset, offset+len)` at the start of the
destination, returns its length, and leaves the cursor alone. -/
def refDecompress (ref : List Nat) : Decompress :=
  fun _ pos dst len offset =>
    let data := (ref.drop offset).take len
    ⟨data.length, data ++ dst.drop data.length, pos, []⟩

/-- An open handle over the three frames `{4096, 4096, 1808}` at
`{0, 4096, 8192}`, the compressed file being 5000 bytes long. -/
def sampleFile : zstd_ro_file :=
  ⟨true, some ⟨true⟩, 5000, 0, some ⟨[⟨0, 4096⟩, ⟨4096, 4096⟩, ⟨8192, 1808⟩]⟩⟩

/-- A six-byte logical file. -/
def smallRef : List Nat := [11, 12, 13, 14, 15, 16]

/-- An open handle over `smallRef`, held in two frames of 4 and 2 bytes; the
compressed file is 40 bytes long. -/
def smallFile : zstd_ro_file :=
  ⟨true, some ⟨true⟩, 40, 0, some ⟨[⟨0, 4⟩, ⟨4, 2⟩]⟩⟩

/-- Collaborators of an open in which every step succeeds. -/
def okEnv : OpenEnv :=
  ⟨true, 0, true, 0, 40, true, 0, ⟨[⟨0, 4⟩, ⟨4, 2⟩]⟩, 40⟩

/-- Collaborators of an open in which the store opens but its size query
fails with `SQLITE_IOERR`. -/
def sizeFailEnv : OpenEnv :=
  ⟨true, 0, true, 10, 0, true, 0, ⟨[]⟩, 0⟩

/-- An inner `xRead` that always signals a short read and zero-fills. -/
def shortXRead : XRead :=
  fun buffer _ _ => (SQLITE_IOERR_SHORT_READ, buffer.map (fun _ => 0))

/-- An inner `xRead` that always succeeds, leaving the buffer as it is. -/
def okXRead : XRead :=
  fun buffer _ _ => (SQLITE_OK, buffer)

/-! ## Lemmas on machine integers and buffers -/

theorem toSizeT_of_range (x : Int) (h0 : 0 ≤ x) (h1 : x ≤ INT64_MAX) :
    toSizeT x = x.toNat := by
  unfold toSizeT
  unfold INT64_MAX at h1
  rw [Int.emod_eq_of_lt h0 (by omega)]

theorem toInt64_of_range (x : Int) (h0 : INT64_MIN ≤ x) (h1 : x ≤ INT64_MAX) :
    toInt64 x = x := by
  unfold toInt64 wrapSigned
  unfold INT64_MIN at h0
  unfold INT64_MAX at h1
  norm_num
  rw [Int.emod_eq_of_lt (by omega) (by omega)]
  omega

theorem toInt32_of_range (x : Int) (h0 : -2147483648 ≤ x) (h1 : x ≤ INT_MAX) :
    toInt32 x = x := by
  unfold toInt32 wrapSigned
  unfold INT_MAX at h1
  norm_num
  rw [Int.emod_eq_of_lt (by omega) (by omega)]
  omega

theorem memset_length (buf : List Nat) (s c n : Nat) :
    (memset buf s c n).length = buf.length := by
  induction buf generalizing s n with
  | nil => simp [memset]
  | cons b bs ih =>
    cases s with
    | zero => cases n with
      | zero => simp [memset]
      | succ n => simp [memset, ih]
    | succ s => simp [memset, ih]

theorem memset_take (buf : List Nat) (s c n : Nat) :
    (memset buf s c n).take s = buf.take s := by
  induction buf generalizing s n with
  | nil => simp [memset]
  | cons b bs ih =>
    cases s with
    | zero => simp
    | succ s => simp [memset, ih]

theorem memset_fill (buf : List Nat) (s c n : Nat) (h : s + n ≤ buf.length) :
    ((memset buf s c n).drop s).take n = List.replicate n c := by
  induction buf generalizing s n with
  | nil =>
    simp at h
    obtain ⟨rfl, rfl⟩ := h
    simp [memset]
  | cons b bs ih =>
    cases s with
    | zero =>
      cases n with
      | zero => simp
      | succ n =>
        have h2 : 0 + n ≤ bs.length := by simp at h; omega
        have := ih 0 n h2
        simp at this
        simp [memset, List.replicate_succ, this]
    | succ s =>
      have h2 : s + n ≤ bs.length := by simp at h; omega
      simpa [memset] using ih s n h2

theorem memset_drop (buf : List Nat) (s c n : Nat) :
    (memset buf s c n).drop (s + n) = buf.drop (s + n) := by
  induction buf generalizing s n with
  | nil => simp [memset]
  | cons b bs ih =>
    cases s with
    | zero =>
      cases n with
      | zero => simp [memset]
      | succ n =>
        have := ih 0 n
        simp at this
        simp [memset, this]
    | succ s =>
      have := ih s n
      simp [memset, Nat.succ_add, this]

theorem land_two_pow_eq_zero (x k : Nat) : x &&& 2 ^ k = 0 ↔ x.testBit k = false := by
  constructor
  · intro h
    have := congrArg (fun y => y.testBit k) h
    simpa [Nat.testBit_two_pow_self] using this
  · intro h
    apply Nat.eq_of_testBit_eq
    intro i
    by_cases hk : k = i
    · subst hk; simp [h]
    · simp [Nat.testBit_two_pow_of_ne hk]

theorem land_lor_eq_zero (x a b : Nat) :
    x &&& (a ||| b) = 0 ↔ x &&& a = 0 ∧ x &&& b = 0 := by
  constructor
  · intro h
    have hb : ∀ i, (x.testBit i && (a.testBit i || b.testBit i)) = false := by
      intro i
      have := congrArg (fun y => y.testBit i) h
      simpa using this
    constructor <;>
    · apply Nat.eq_of_testBit_eq
      intro i
      have := hb i
      simp only [Nat.testBit_and, Nat.zero_testBit]
      revert this
      cases x.testBit i <;> cases a.testBit i <;> cases b.testBit i <;> simp
  · rintro ⟨ha, hb⟩
    apply Nat.eq_of_testBit_eq
    intro i
    have h1 := congrArg (fun y => y.testBit i) ha
    have h2 := congrArg (fun y => y.testBit i) hb
    simp only [Nat.testBit_and, Nat.zero_testBit] at h1 h2 ⊢
    simp only [Nat.testBit_or]
    revert h1 h2
    cases x.testBit i <;> cases a.testBit i <;> cases b.testBit i <;> simp

/-- The read-only test of `zstd_ro_Open` on the bits of `flags`. -/
theorem open_readonly_test (flags : Nat) :
    (flags &&& SQLITE_OPEN_READONLY = 0 ∨
      flags &&& (SQLITE_OPEN_READWRITE ||| SQLITE_OPEN_CREATE) ≠ 0) ↔
    (flags.testBit 0 = false ∨ flags.testBit 1 = true ∨ flags.testBit 2 = true) := by
  have h0 : flags &&& SQLITE_OPEN_READONLY = 0 ↔ flags.testBit 0 = false :=
    land_two_pow_eq_zero flags 0
  have h1 : flags &&& SQLITE_OPEN_READWRITE = 0 ↔ flags.testBit 1 = false :=
    land_two_pow_eq_zero flags 1
  have h2 : flags &&& SQLITE_OPEN_CREATE = 0 ↔ flags.testBit 2 = false :=
    land_two_pow_eq_zero flags 2
  rw [Ne, land_lor_eq_zero, h0, h1, h2]
  cases flags.testBit 0 <;> cases flags.testBit 1 <;> cases flags.testBit 2 <;> simp

/-- The main-database test of `zstd_ro_Open` on the bits of `flags`. -/
theorem open_main_db_test (flags : Nat) :
    flags &&& SQLITE_OPEN_MAIN_DB = 0 ↔ flags.testBit 8 = false :=
  land_two_pow_eq_zero flags 8

/-- A request that passes both flag tests runs the set-up part of
`zstd_ro_Open`. -/
theorem zstd_ro_Open_of_valid (env : OpenEnv) (p : zstd_ro_file) (flags : Nat)
    (hv : flags.testBit 0 = true ∧ flags.testBit 1 = false ∧ flags.testBit 2 = false ∧
      flags.testBit 8 = true) :
    zstd_ro_Open env p flags =
      if ¬ env.malloc_ok then
        ⟨SQLITE_NOMEM, ⟨true, none, 0, 0, none⟩, [Call.sqlite3_malloc]⟩
      else if env.xOpen_rc ≠ SQLITE_OK then
        ⟨env.xOpen_rc, ⟨true, some ⟨env.xOpen_pMethods⟩, 0, 0, none⟩,
          [Call.sqlite3_malloc, Call.xOpen flags]⟩
      else if env.xFileSize_rc ≠ SQLITE_OK then
        ⟨env.xFileSize_rc, ⟨true, some ⟨env.xOpen_pMethods⟩, env.xFileSize_size, 0, none⟩,
          [Call.sqlite3_malloc, Call.xOpen flags, Call.xFileSize]⟩
      else if ¬ env.create_ok then
        ⟨SQLITE_NOMEM, ⟨true, some ⟨env.xOpen_pMethods⟩, env.xFileSize_size, 0, none⟩,
          [Call.sqlite3_malloc, Call.xOpen flags, Call.xFileSize, Call.ZSTD_seekable_create]⟩
      else
        ⟨if ZSTD_isError env.init_zrc then SQLITE_CORRUPT else SQLITE_OK,
          ⟨true, some ⟨env.xOpen_pMethods⟩, env.xFileSize_size, env.init_pos,
            some env.init_decoder⟩,
          [Call.sqlite3_malloc, Call.xOpen flags, Call.xFileSize, Call.ZSTD_seekable_create,
            Call.ZSTD_seekable_initAdvanced]⟩ := by
  obtain ⟨v0, v1, v2, v8⟩ := hv
  have hr : ¬ (flags &&& SQLITE_OPEN_READONLY = 0 ∨
      flags &&& (SQLITE_OPEN_READWRITE ||| SQLITE_OPEN_CREATE) ≠ 0) := by
    rw [open_readonly_test]
    simp [v0, v1, v2]
  have hm : ¬ (flags &&& SQLITE_OPEN_MAIN_DB = 0) := by
    rw [open_main_db_test]
    simp [v8]
  unfold zstd_ro_Open
  rw [if_neg hr, if_neg hm]

/-- `zstd_ro_Close` on any handle: what it returns, calls and leaves. -/
theorem zstd_ro_Close_spec (s : zstd_ro_file) :
    (zstd_ro_Close s).rc = SQLITE_OK ∧
    (zstd_ro_Close s).calls =
      (if s.decompressor.isSome then [Call.ZSTD_seekable_free] else []) ++
      (match s.origfile with
        | some f => (if f.pMethods then [Call.xClose] else []) ++ [Call.sqlite3_free]
        | none => []) ∧
    (zstd_ro_Close s).file = { s with decompressor := none, origfile := none } := by
  obtain ⟨b, o, sz, pos, d⟩ := s
  cases d <;> cases o <;> simp [zstd_ro_Close]

theorem contiguousFrom_last (fs : List Frame) (o : Nat) (hne : fs ≠ [])
    (hc : contiguousFrom o fs = true) :
    (fs.getD (fs.length - 1) ⟨0, 0⟩).dOffset + (fs.getD (fs.length - 1) ⟨0, 0⟩).dSize
      = o + totalSize fs := by
  induction fs generalizing o with
  | nil => exact absurd rfl hne
  | cons f fs ih =>
    simp only [contiguousFrom, Bool.and_eq_true, decide_eq_true_eq] at hc
    obtain ⟨hf, hrest⟩ := hc
    cases fs with
    | nil => simp [totalSize, hf]
    | cons g gs =>
      have := ih (o + f.dSize) (by simp) hrest
      simp only [List.length_cons, Nat.add_sub_cancel, List.getD_cons_succ] at this ⊢
      rw [this]
      simp [totalSize]
      omega

/-! ## Reads -/

/-- With a length and an offset that are not negative, `zstd_ro_Read` is the
three-way comparison of the decoder's result with the length. -/
theorem zstd_ro_Read_of_nonneg (dec : Decompress) (p : zstd_ro_file)
    (zBuf : List Nat) (want offset : Int)
    (hw0 : 0 ≤ want) (hw1 : want ≤ INT_MAX) (ho0 : 0 ≤ offset) (ho1 : offset ≤ INT64_MAX) :
    zstd_ro_Read dec p zBuf want offset =
      let r := dec p.decompressor p.origfile_pos zBuf want.toNat offset.toNat
      if r.zrc = want.toNat then
        ⟨SQLITE_OK, r.dst, { p with origfile_pos := r.origfile_pos },
          Call.ZSTD_seekable_decompress want.toNat offset.toNat :: r.calls⟩
      else if r.zrc < want.toNat then
        ⟨SQLITE_IOERR_SHORT_READ, memset r.dst r.zrc 0 (want.toNat - r.zrc),
          { p with origfile_pos := r.origfile_pos },
          Call.ZSTD_seekable_decompress want.toNat offset.toNat :: r.calls⟩
      else
        ⟨SQLITE_IOERR_READ, r.dst, { p with origfile_pos := r.origfile_pos },
          Call.ZSTD_seekable_decompress want.toNat offset.toNat :: r.calls⟩ := by
  have hW : toSizeT want = want.toNat :=
    toSizeT_of_range want hw0 (by unfold INT_MAX at hw1; unfold INT64_MAX; omega)
  have hO : toSizeT offset = offset.toNat := toSizeT_of_range offset ho0 ho1
  have hneg : ¬ (want < 0 ∨ offset < 0) := by omega
  unfold zstd_ro_Read
  rw [if_neg hneg]
  simp only [hW, hO]

/-- The short-read branch: return code and buffer. -/
theorem zstd_ro_Read_short (dec : Decompress) (p : zstd_ro_file)
    (zBuf : List Nat) (want offset : Int)
    (hw0 : 0 ≤ want) (hw1 : want ≤ INT_MAX) (ho0 : 0 ≤ offset) (ho1 : offset ≤ INT64_MAX)
    (h : (dec p.decompressor p.origfile_pos zBuf want.toNat offset.toNat).zrc < want.toNat) :
    (zstd_ro_Read dec p zBuf want offset).rc = SQLITE_IOERR_SHORT_READ ∧
    (zstd_ro_Read dec p zBuf want offset).zBuf =
      memset (dec p.decompressor p.origfile_pos zBuf want.toNat offset.toNat).dst
        (dec p.decompressor p.origfile_pos zBuf want.toNat offset.toNat).zrc 0
        (want.toNat - (dec p.decompressor p.origfile_pos zBuf want.toNat offset.toNat).zrc) := by
  rw [zstd_ro_Read_of_nonneg dec p zBuf want offset hw0 hw1 ho0 ho1]
  simp only
  rw [if_neg (by omega), if_pos h]
  exact ⟨rfl, rfl⟩

/-- The exact-read branch: return code and buffer. -/
theorem zstd_ro_Read_exact (dec : Decompress) (p : zstd_ro_file)
    (zBuf : List Nat) (want offset : Int)
    (hw0 : 0 ≤ want) (hw1 : want ≤ INT_MAX) (ho0 : 0 ≤ offset) (ho1 : offset ≤ INT64_MAX)
    (h : (dec p.decompressor p.origfile_pos zBuf want.toNat offset.toNat).zrc = want.toNat) :
    (zstd_ro_Read dec p zBuf want offset).rc = SQLITE_OK ∧
    (zstd_ro_Read dec p zBuf want offset).zBuf =
      (dec p.decompressor p.origfile_pos zBuf want.toNat offset.toNat).dst := by
  rw [zstd_ro_Read_of_nonneg dec p zBuf want offset hw0 hw1 ho0 ho1]
  simp only
  rw [if_pos h]
  exact ⟨rfl, rfl⟩

/-- C1: outcome classification of `zstd_ro_Read`.  For a length `want >= 0`
and an offset `>= 0` (an `int` and a `sqlite3_int64`), with `r` what the
decoder left and `got = r.zrc`: if `got = want` the result is `SQLITE_OK` and
the buffer is the decoder's; if `got < want` the result is
`SQLITE_IOERR_SHORT_READ`, the first `got` bytes are the decoder's, the bytes
`[got, want)` are zero and nothing else changes; otherwise the result is
`SQLITE_IOERR_READ`.  When the decoder delivered the in-range prefix of a
reference decompression `ref`, the first `want` bytes of the buffer are that
prefix followed by zeros. -/
theorem zstd_ro_Read_classification (dec : Decompress) (p : zstd_ro_file)
    (zBuf : List Nat) (want offset : Int)
    (hw0 : 0 ≤ want) (hw1 : want ≤ INT_MAX) (ho0 : 0 ≤ offset) (ho1 : offset ≤ INT64_MAX) :
    let r := dec p.decompressor p.origfile_pos zBuf want.toNat offset.toNat
    let out := zstd_ro_Read dec p zBuf want offset
    (r.zrc = want.toNat → out.rc = SQLITE_OK ∧ out.zBuf = r.dst) ∧
    (r.zrc < want.toNat →
      out.rc = SQLITE_IOERR_SHORT_READ ∧
      out.zBuf.take r.zrc = r.dst.take r.zrc ∧
      (want.toNat ≤ r.dst.length →
        (out.zBuf.drop r.zrc).take (want.toNat - r.zrc)
          = List.replicate (want.toNat - r.zrc) 0) ∧
      out.zBuf.drop want.toNat = r.dst.drop want.toNat ∧
      out.zBuf.length = r.dst.length) ∧
    (want.toNat < r.zrc → out.rc = SQLITE_IOERR_READ ∧ out.zBuf = r.dst) ∧
    (∀ ref : List Nat,
      want.toNat ≤ r.dst.length →
      r.zrc = ((ref.drop offset.toNat).take want.toNat).length →
      r.dst.take r.zrc = (ref.drop offset.toNat).take want.toNat →
      out.zBuf.take want.toNat
        = (ref.drop offset.toNat).take want.toNat
            ++ List.replicate (want.toNat - r.zrc) 0) := by
  intro r out
  have hshort : r.zrc < want.toNat →
      out.rc = SQLITE_IOERR_SHORT_READ ∧
      out.zBuf = memset r.dst r.zrc 0 (want.toNat - r.zrc) :=
    zstd_ro_Read_short dec p zBuf want offset hw0 hw1 ho0 ho1
  have hexact : r.zrc = want.toNat → out.rc = SQLITE_OK ∧ out.zBuf = r.dst :=
    zstd_ro_Read_exact dec p zBuf want offset hw0 hw1 ho0 ho1
  have hout := zstd_ro_Read_of_nonneg dec p zBuf want offset hw0 hw1 ho0 ho1
  refine ⟨hexact, ?_, ?_, ?_⟩
  · intro h
    obtain ⟨h1, h2⟩ := hshort h
    refine ⟨h1, ?_, ?_, ?_, ?_⟩
    · rw [h2, memset_take]
    · intro hlen
      rw [h2]
      exact memset_fill _ _ _ _ (by omega)
    · rw [h2]
      have := memset_drop r.dst r.zrc 0 (want.toNat - r.zrc)
      rwa [show r.zrc + (want.toNat - r.zrc) = want.toNat by omega] at this
    · rw [h2, memset_length]
  · intro h
    show (zstd_ro_Read dec p zBuf want offset).rc = _ ∧ (zstd_ro_Read dec p zBuf want offset).zBuf = _
    rw [hout]
    simp only
    have h2 : want.toNat <
        (dec p.decompressor p.origfile_pos zBuf want.toNat offset.toNat).zrc := h
    rw [if_neg (Nat.ne_of_gt h2), if_neg (Nat.not_lt_of_gt h2)]
    exact ⟨rfl, rfl⟩
  · intro ref hlen hgot hpre
    have hle : r.zrc ≤ want.toNat := by
      rw [hgot, List.length_take]
      exact Nat.min_le_left _ _
    rcases Nat.eq_or_lt_of_le hle with heq | hlt
    · rw [(hexact heq).2]
      have hz : want.toNat - r.zrc = 0 := by omega
      rw [hz, ← hpre, heq]
      simp
    · obtain ⟨_, h2⟩ := hshort hlt
      have e1 : (out.zBuf.take want.toNat).take r.zrc = (ref.drop offset.toNat).take want.toNat := by
        rw [List.take_take, Nat.min_eq_left hle, h2, memset_take, hpre]
      have e2 : (out.zBuf.take want.toNat).drop r.zrc = List.replicate (want.toNat - r.zrc) 0 := by
        rw [List.drop_take, h2]
        exact memset_fill _ _ _ _ (by omega)
      rw [← List.take_append_drop r.zrc (out.zBuf.take want.toNat), e1, e2]

/-- Witness for C1: four bytes asked at offset 4 of the six-byte file give a
short read of `[15, 16, 0, 0]`. -/
theorem zstd_ro_Read_classification_witness :
    (zstd_ro_Read (refDecompress smallRef) smallFile [9, 9, 9, 9, 9] 4 4).zBuf.take 4
      = [15, 16] ++ List.replicate 2 0 :=
  (zstd_ro_Read_classification (refDecompress smallRef) smallFile [9, 9, 9, 9, 9] 4 4
    (by decide) (by decide) (by decide) (by decide)).2.2.2 smallRef
    (by decide) (by decide) (by decide)

/-- C2 (as stated) fails for a zero length: at offset 6, the logical size of
the six-byte file, the decoder produces no bytes and a read of length 0
returns `SQLITE_OK`, not the short-read code. -/
theorem zstd_ro_Read_past_end_zero_length :
    (zstd_ro_FileSize smallFile).2 ≤ 6 ∧
    (refDecompress smallRef smallFile.decompressor smallFile.origfile_pos [9, 9] 0 6).zrc = 0 ∧
    (zstd_ro_Read (refDecompress smallRef) smallFile [9, 9] 0 6).rc = SQLITE_OK ∧
    (zstd_ro_Read (refDecompress smallRef) smallFile [9, 9] 0 6).rc
      ≠ SQLITE_IOERR_SHORT_READ := by
  decide

/-- C2 (amended): on a handle whose decoder produces no bytes for a range
starting at or past the logical size, a read at an offset at or beyond the
logical size with a length `> 0` returns `SQLITE_IOERR_SHORT_READ` and every
byte of `buffer[0:length]` is zero; with length `0` it returns `SQLITE_OK`
and the buffer is as the decoder left it. -/
theorem zstd_ro_Read_past_end (dec : Decompress) (p : zstd_ro_file)
    (zBuf : List Nat) (length offset : Int)
    (hl0 : 0 ≤ length) (hl1 : length ≤ INT_MAX) (ho1 : offset ≤ INT64_MAX)
    (hsize : 0 ≤ (zstd_ro_FileSize p).2)
    (hpast : (zstd_ro_FileSize p).2 ≤ offset)
    (hdec : ∀ (pos : Int) (dst : List Nat) (len off : Nat),
      (zstd_ro_FileSize p).2 ≤ (off : Int) → (dec p.decompressor pos dst len off).zrc = 0)
    (hroom : length.toNat ≤
      (dec p.decompressor p.origfile_pos zBuf length.toNat offset.toNat).dst.length) :
    let out := zstd_ro_Read dec p zBuf length offset
    (0 < length →
      out.rc = SQLITE_IOERR_SHORT_READ ∧
      out.zBuf.take length.toNat = List.replicate length.toNat 0) ∧
    (length = 0 →
      out.rc = SQLITE_OK ∧
      out.zBuf = (dec p.decompressor p.origfile_pos zBuf 0 offset.toNat).dst) := by
  intro out
  have ho0 : 0 ≤ offset := le_trans hsize hpast
  have hz : (dec p.decompressor p.origfile_pos zBuf length.toNat offset.toNat).zrc = 0 :=
    hdec _ _ _ _ (by rw [Int.toNat_of_nonneg ho0]; exact hpast)
  constructor
  · intro hpos
    have hlt : 0 < length.toNat := by omega
    obtain ⟨h1, h2⟩ :=
      zstd_ro_Read_short dec p zBuf length offset hl0 hl1 ho0 ho1 (by rw [hz]; exact hlt)
    refine ⟨h1, ?_⟩
    show (zstd_ro_Read dec p zBuf length offset).zBuf.take length.toNat = _
    rw [h2, hz]
    have := memset_fill _ 0 0 (length.toNat - 0) (by simpa using hroom)
    simpa using this
  · intro h0
    subst h0
    exact zstd_ro_Read_exact dec p zBuf 0 offset hl0 hl1 ho0 ho1 (by simpa using hz)

/-- Witness for C2 (amended): three bytes asked at offset 6 of the six-byte
file come back as a short read of three zero bytes. -/
theorem zstd_ro_Read_past_end_witness :
    (zstd_ro_Read (refDecompress smallRef) smallFile [9, 9, 9] 3 6).rc
        = SQLITE_IOERR_SHORT_READ ∧
    (zstd_ro_Read (refDecompress smallRef) smallFile [9, 9, 9] 3 6).zBuf.take 3
        = List.replicate 3 0 :=
  (zstd_ro_Read_past_end (refDecompress smallRef) smallFile [9, 9, 9] 3 6
    (by decide) (by decide) (by decide) (by decide) (by decide)
    (by
      intro pos dst len off h
      have h6 : 6 ≤ off := by
        have : (zstd_ro_FileSize smallFile).2 = 6 := by decide
        rw [this] at h
        exact_mod_cast h
      simp [refDecompress, smallRef, List.drop_eq_nil_of_le, h6])
    (by decide)).1 (by decide)

/-- C3: a read with a negative length or a negative offset returns the error
code `SQLITE_IOERR_READ` (neither `SQLITE_OK` nor the short-read code),
leaves the buffer and every field of the handle as they were, and makes no
external call: the decoder is not invoked, so no pull or reposition reaches
the underlying store, whatever the decoder is. -/
theorem zstd_ro_Read_negative (dec : Decompress) (p : zstd_ro_file)
    (zBuf : List Nat) (iAmt iOfst : Int) (hneg : iAmt < 0 ∨ iOfst < 0) :
    let out := zstd_ro_Read dec p zBuf iAmt iOfst
    out.rc = SQLITE_IOERR_READ ∧ out.rc ≠ SQLITE_OK ∧ out.rc ≠ SQLITE_IOERR_SHORT_READ ∧
    out.zBuf = zBuf ∧ out.file = p ∧ out.calls = [] ∧
    ∀ dec2 : Decompress, zstd_ro_Read dec2 p zBuf iAmt iOfst = out := by
  intro out
  have hout : ∀ d : Decompress,
      zstd_ro_Read d p zBuf iAmt iOfst = ⟨SQLITE_IOERR_READ, zBuf, p, []⟩ := by
    intro d
    unfold zstd_ro_Read
    rw [if_pos hneg]
  have h : out = ⟨SQLITE_IOERR_READ, zBuf, p, []⟩ := hout dec
  rw [h]
  have e1 : SQLITE_IOERR_READ ≠ SQLITE_OK := by decide
  have e2 : SQLITE_IOERR_READ ≠ SQLITE_IOERR_SHORT_READ := by decide
  exact ⟨rfl, e1, e2, rfl, rfl, rfl, fun d => hout d⟩

/-- Witness for C3: length `-1` at offset `0`. -/
theorem zstd_ro_Read_negative_witness :
    (zstd_ro_Read (refDecompress smallRef) smallFile [9, 9] (-1) 0).calls = [] ∧
    (zstd_ro_Read (refDecompress smallRef) smallFile [9, 9] (-1) 0).zBuf = [9, 9] :=
  have h := zstd_ro_Read_negative (refDecompress smallRef) smallFile [9, 9] (-1) 0
    (Or.inl (by decide))
  ⟨h.2.2.2.2.2.1, h.2.2.2.1⟩

/-! ## Read-only methods and the logical size -/

/-- C4 (as stated) fails for sync: `zstd_ro_Sync` returns `SQLITE_OK`, not
`SQLITE_READONLY`. -/
theorem zstd_ro_Sync_not_readonly :
    (zstd_ro_Sync smallFile 0).1 = SQLITE_OK ∧
    (zstd_ro_Sync smallFile 0).1 ≠ SQLITE_READONLY := by
  decide

/-- C4 (amended): for every handle and every argument, `zstd_ro_Write` and
`zstd_ro_Truncate` return `SQLITE_READONLY` and `zstd_ro_Sync` returns
`SQLITE_OK`; each of the three leaves every field of the handle unchanged, so
a later size query or read gives the same answer. -/
theorem zstd_ro_write_truncate_sync (p : zstd_ro_file) (z : List Nat)
    (iAmt iOfst size : Int) (flags : Int) :
    (zstd_ro_Write p z iAmt iOfst).1 = SQLITE_READONLY ∧
    (zstd_ro_Truncate p size).1 = SQLITE_READONLY ∧
    (zstd_ro_Sync p flags).1 = SQLITE_OK ∧
    (zstd_ro_Write p z iAmt iOfst).2 = p ∧
    (zstd_ro_Truncate p size).2 = p ∧
    (zstd_ro_Sync p flags).2 = p ∧
    zstd_ro_FileSize (zstd_ro_Write p z iAmt iOfst).2 = zstd_ro_FileSize p ∧
    zstd_ro_FileSize (zstd_ro_Truncate p size).2 = zstd_ro_FileSize p ∧
    zstd_ro_FileSize (zstd_ro_Sync p flags).2 = zstd_ro_FileSize p ∧
    (∀ (dec : Decompress) (zBuf : List Nat) (n o : Int),
      zstd_ro_Read dec (zstd_ro_Write p z iAmt iOfst).2 zBuf n o = zstd_ro_Read dec p zBuf n o ∧
      zstd_ro_Read dec (zstd_ro_Truncate p size).2 zBuf n o = zstd_ro_Read dec p zBuf n o ∧
      zstd_ro_Read dec (zstd_ro_Sync p flags).2 zBuf n o = zstd_ro_Read dec p zBuf n o) :=
  ⟨rfl, rfl, rfl, rfl, rfl, rfl, rfl, rfl, rfl, fun _ _ _ _ => ⟨rfl, rfl, rfl⟩⟩

/-- C5: `zstd_ro_FileSize` on an open handle returns `SQLITE_OK`; the size
is 0 when the frame index has no frames and otherwise the logical offset of
frame `num_frames - 1` plus its logical size (a value that fits the signed
64-bit result); for frames contiguous from offset 0 it is the sum of all
frame sizes; and it is the same whatever `origfile_size` is. -/
theorem zstd_ro_FileSize_logical (p : zstd_ro_file) (zs : ZSTD_seekable)
    (hopen : p.decompressor = some zs)
    (hrep : ((ZSTD_seekable_getFrameDecompressedOffset zs (ZSTD_seekable_getNumFrames zs - 1)
      + ZSTD_seekable_getFrameDecompressedSize zs (ZSTD_seekable_getNumFrames zs - 1) : Nat) : Int)
      ≤ INT64_MAX) :
    (zstd_ro_FileSize p).1 = SQLITE_OK ∧
    (ZSTD_seekable_getNumFrames zs = 0 → (zstd_ro_FileSize p).2 = 0) ∧
    (ZSTD_seekable_getNumFrames zs ≠ 0 →
      (zstd_ro_FileSize p).2 =
        ((ZSTD_seekable_getFrameDecompressedOffset zs (ZSTD_seekable_getNumFrames zs - 1)
          + ZSTD_seekable_getFrameDecompressedSize zs (ZSTD_seekable_getNumFrames zs - 1) : Nat)
          : Int)) ∧
    (contiguousFrom 0 zs.frames = true → (zstd_ro_FileSize p).2 = (totalSize zs.frames : Int)) ∧
    (∀ sz : Int, zstd_ro_FileSize { p with origfile_size := sz } = zstd_ro_FileSize p) := by
  have hlast : ZSTD_seekable_getNumFrames zs ≠ 0 →
      (zstd_ro_FileSize p).2 =
        ((ZSTD_seekable_getFrameDecompressedOffset zs (ZSTD_seekable_getNumFrames zs - 1)
          + ZSTD_seekable_getFrameDecompressedSize zs (ZSTD_seekable_getNumFrames zs - 1) : Nat)
          : Int) := by
    intro hn
    unfold zstd_ro_FileSize
    simp only [hopen, Option.getD_some]
    rw [if_pos hn]
    simp only
    have hlt : (ZSTD_seekable_getFrameDecompressedOffset zs (ZSTD_seekable_getNumFrames zs - 1)
        + ZSTD_seekable_getFrameDecompressedSize zs (ZSTD_seekable_getNumFrames zs - 1)) < 2 ^ 64 := by
      unfold INT64_MAX at hrep
      omega
    rw [Nat.mod_eq_of_lt hlt]
    exact toInt64_of_range _ (by unfold INT64_MIN; omega) hrep
  have hzero : ZSTD_seekable_getNumFrames zs = 0 → (zstd_ro_FileSize p).2 = 0 := by
    intro hn
    unfold zstd_ro_FileSize
    simp only [hopen, Option.getD_some]
    rw [if_neg (by simpa using hn)]
  refine ⟨?_, hzero, hlast, ?_, fun _ => rfl⟩
  · unfold zstd_ro_FileSize
    simp only
    split <;> rfl
  · intro hc
    by_cases hn : ZSTD_seekable_getNumFrames zs = 0
    · rw [hzero hn]
      have : zs.frames = [] := List.length_eq_zero.mp hn
      simp [this, totalSize]
    · rw [hlast hn]
      have hne : zs.frames ≠ [] := fun h => hn (by simp [ZSTD_seekable_getNumFrames, h])
      have := contiguousFrom_last zs.frames 0 hne hc
      simp only [ZSTD_seekable_getFrameDecompressedOffset, ZSTD_seekable_getFrameDecompressedSize,
        ZSTD_seekable_getNumFrames]
      rw [this]
      simp

/-- Witness for C5: frames `{4096, 4096, 1808}` at `{0, 4096, 8192}` give a
logical size of 10000, the compressed file being 5000 bytes long. -/
theorem zstd_ro_FileSize_logical_witness :
    (zstd_ro_FileSize sampleFile).2 = 10000 :=
  ((zstd_ro_FileSize_logical sampleFile ⟨[⟨0, 4096⟩, ⟨4096, 4096⟩, ⟨8192, 1808⟩]⟩
    rfl (by decide)).2.2.2.1 (by decide)).trans (by decide)

/-! ## Open and close -/

/-- C6: flag validation of `zstd_ro_Open`, on the bits of `flags` (bit 0
read-only, bit 1 read-write, bit 2 create, bit 8 main database).  If the
read-only bit is absent or the read-write or create bit is present the result
is `SQLITE_READONLY`; otherwise, if the main-database bit is absent, it is
`SQLITE_CANTOPEN`; in both cases no external call is made and the handle is
returned as it was.  A request with read-only set, read-write and create
clear and main-database set goes on to allocate and (the allocation
succeeding) to open the underlying store, and only such a request makes any
external call. -/
theorem zstd_ro_Open_flag_validation (env : OpenEnv) (p : zstd_ro_file) (flags : Nat) :
    let out := zstd_ro_Open env p flags
    ((flags.testBit 0 = false ∨ flags.testBit 1 = true ∨ flags.testBit 2 = true) →
      out.rc = SQLITE_READONLY ∧ out.file = p ∧ out.calls = []) ∧
    ((flags.testBit 0 = true ∧ flags.testBit 1 = false ∧ flags.testBit 2 = false ∧
        flags.testBit 8 = false) →
      out.rc = SQLITE_CANTOPEN ∧ out.file = p ∧ out.calls = []) ∧
    ((flags.testBit 0 = true ∧ flags.testBit 1 = false ∧ flags.testBit 2 = false ∧
        flags.testBit 8 = true) →
      out.calls.head? = some Call.sqlite3_malloc ∧
      (env.malloc_ok = true →
        out.calls.take 2 = [Call.sqlite3_malloc, Call.xOpen flags])) ∧
    (out.calls ≠ [] →
      flags.testBit 0 = true ∧ flags.testBit 1 = false ∧ flags.testBit 2 = false ∧
        flags.testBit 8 = true) := by
  intro out
  have hro : (flags.testBit 0 = false ∨ flags.testBit 1 = true ∨ flags.testBit 2 = true) →
      out = ⟨SQLITE_READONLY, p, []⟩ := by
    intro h
    show zstd_ro_Open env p flags = _
    unfold zstd_ro_Open
    rw [if_pos ((open_readonly_test flags).mpr h)]
  have hco : (flags.testBit 0 = true ∧ flags.testBit 1 = false ∧ flags.testBit 2 = false ∧
      flags.testBit 8 = false) → out = ⟨SQLITE_CANTOPEN, p, []⟩ := by
    rintro ⟨v0, v1, v2, v8⟩
    show zstd_ro_Open env p flags = _
    unfold zstd_ro_Open
    rw [if_neg (by rw [open_readonly_test]; simp [v0, v1, v2]),
      if_pos ((open_main_db_test flags).mpr v8)]
  have hgo := zstd_ro_Open_of_valid env p flags
  refine ⟨fun h => ?_, fun h => ?_, fun h => ?_, fun h => ?_⟩
  · rw [hro h]
    exact ⟨rfl, rfl, rfl⟩
  · rw [hco h]
    exact ⟨rfl, rfl, rfl⟩
  · have e : out = _ := hgo h
    rw [e]
    constructor
    · split_ifs <;> rfl
    · intro hm
      rw [if_neg (by simp [hm])]
      split_ifs <;> rfl
  · by_contra hv
    have hcases : (flags.testBit 0 = false ∨ flags.testBit 1 = true ∨ flags.testBit 2 = true) ∨
        (flags.testBit 0 = true ∧ flags.testBit 1 = false ∧ flags.testBit 2 = false ∧
          flags.testBit 8 = false) := by
      revert hv
      cases flags.testBit 0 <;> cases flags.testBit 1 <;> cases flags.testBit 2 <;>
        cases flags.testBit 8 <;> simp
    rcases hcases with h1 | h2
    · rw [hro h1] at h
      exact h rfl
    · rw [hco h2] at h
      exact h rfl

/-- Witness for C6: a read-write main-database request (`0x102`) is refused
as read-only, and a read-only main-journal request (`0x801`) cannot be
opened; neither makes a call. -/
theorem zstd_ro_Open_flag_validation_witness :
    (zstd_ro_Open okEnv smallFile 0x102).rc = SQLITE_READONLY ∧
    (zstd_ro_Open okEnv smallFile 0x102).calls = [] ∧
    (zstd_ro_Open okEnv smallFile 0x801).rc = SQLITE_CANTOPEN ∧
    (zstd_ro_Open okEnv smallFile 0x801).calls = [] :=
  have h1 := (zstd_ro_Open_flag_validation okEnv smallFile 0x102).1 (by decide)
  have h2 := (zstd_ro_Open_flag_validation okEnv smallFile 0x801).2.1 (by decide)
  ⟨h1.1, h1.2.2, h2.1, h2.2.2⟩

/-- C7: close after any open that passed flag validation, and close again.
With `s` the handle `zstd_ro_Open` left (whichever step it stopped at), the
first `zstd_ro_Close` returns `SQLITE_OK`; it calls `ZSTD_seekable_free`
exactly when a decoder is present, `xClose` exactly when the store was
allocated and opened, and `sqlite3_free` exactly when the store was
allocated, in that order and once each; it clears both pointers and touches
nothing else.  The second `zstd_ro_Close` returns `SQLITE_OK`, makes no call
and leaves the handle as the first close left it. -/
theorem zstd_ro_Close_after_Open (env : OpenEnv) (p : zstd_ro_file) (flags : Nat)
    (hv : flags.testBit 0 = true ∧ flags.testBit 1 = false ∧ flags.testBit 2 = false ∧
      flags.testBit 8 = true) :
    let s := (zstd_ro_Open env p flags).file
    let c1 := zstd_ro_Close s
    let c2 := zstd_ro_Close c1.file
    c1.rc = SQLITE_OK ∧
    c1.calls =
      (if s.decompressor.isSome then [Call.ZSTD_seekable_free] else []) ++
      (if env.malloc_ok ∧ env.xOpen_pMethods then [Call.xClose] else []) ++
      (if env.malloc_ok then [Call.sqlite3_free] else []) ∧
    (s.origfile.isSome = env.malloc_ok) ∧
    (s.origfile = some ⟨true⟩ ↔ env.malloc_ok = true ∧ env.xOpen_pMethods = true) ∧
    (s.decompressor.isSome = true ↔
      env.malloc_ok = true ∧ env.xOpen_rc = SQLITE_OK ∧ env.xFileSize_rc = SQLITE_OK ∧
        env.create_ok = true) ∧
    c1.file = { s with decompressor := none, origfile := none } ∧
    c2.rc = SQLITE_OK ∧ c2.calls = [] ∧ c2.file = c1.file := by
  intro s c1 c2
  have hs : s = (zstd_ro_Open env p flags).file := rfl
  rw [zstd_ro_Open_of_valid env p flags hv] at hs
  obtain ⟨h1, h2, h3⟩ := zstd_ro_Close_spec s
  obtain ⟨k1, k2, k3⟩ := zstd_ro_Close_spec c1.file
  have hc1 : c1.file = { s with decompressor := none, origfile := none } := h3
  have hc2 : c2.calls = [] := by
    show (zstd_ro_Close c1.file).calls = []
    rw [k2, hc1]
    rfl
  have hc3 : c2.file = c1.file := by
    show (zstd_ro_Close c1.file).file = c1.file
    rw [k3, hc1]
  refine ⟨h1, ?_, ?_, ?_, ?_, hc1, k1, hc2, hc3⟩
  · show (zstd_ro_Close s).calls = _
    rw [h2, hs]
    cases env.malloc_ok <;> cases env.xOpen_pMethods <;> simp <;> split_ifs <;> simp
  · rw [hs]
    cases env.malloc_ok <;> simp <;> split_ifs <;> simp
  · rw [hs]
    cases env.malloc_ok <;> cases env.xOpen_pMethods <;> simp <;> split_ifs <;> simp
  · rw [hs]
    cases env.malloc_ok <;> cases env.create_ok <;> simp <;> split_ifs <;> simp_all

/-- Witness for C7: a read-only main-database open (`0x101`) whose size query
fails leaves an opened store and no decoder; close then calls `xClose` and
`sqlite3_free`, and a second close calls nothing. -/
theorem zstd_ro_Close_after_Open_witness :
    (zstd_ro_Close (zstd_ro_Open sizeFailEnv smallFile 0x101).file).calls
      = [Call.xClose, Call.sqlite3_free] ∧
    (zstd_ro_Close
      (zstd_ro_Close (zstd_ro_Open sizeFailEnv smallFile 0x101).file).file).calls = [] :=
  have h := zstd_ro_Close_after_Open sizeFailEnv smallFile 0x101 (by decide)
  ⟨h.2.1.trans (by decide), h.2.2.2.2.2.2.2.1⟩

/-! ## Byte-source bridge -/

/-- C8 (as stated) fails in two places.  With the cursor at 0, a memoised
length of `2^31` and a 10-byte request answered by a short read, pull returns
`-2^31` (the conversion of `size - pos` to `int`), not `size - pos`, and the
cursor goes to `-2^31`.  With the cursor at 5 past a length of 3 and a 0-byte
request answered by a short read, `pos + n > size` holds and pull returns 0,
which is not strictly less than `n = 0`. -/
theorem ZSTD_seekable_read_sqlite3_file_short_counterexample :
    (ZSTD_seekable_read_sqlite3_file shortXRead
        ⟨true, some ⟨true⟩, 2147483648, 0, none⟩ [9] 10).ret = -2147483648 ∧
    (ZSTD_seekable_read_sqlite3_file shortXRead
        ⟨true, some ⟨true⟩, 2147483648, 0, none⟩ [9] 10).ret ≠ 2147483648 - 0 ∧
    (ZSTD_seekable_read_sqlite3_file shortXRead
        ⟨true, some ⟨true⟩, 2147483648, 0, none⟩ [9] 10).file.origfile_pos = -2147483648 ∧
    ((5 : Int) + (0 : Nat) > 3 ∧
      ¬ (ZSTD_seekable_read_sqlite3_file shortXRead
        ⟨true, some ⟨true⟩, 3, 5, none⟩ [] 0).ret < ((0 : Nat) : Int)) := by
  decide

/-- C8 (amended): pull, for a cursor `pos` and a memoised length `size` that
are signed 64-bit values and a request `n` that fits in an `int`.  The store
is read once, at `pos`, for `n` bytes.  (1) If that read returns `SQLITE_OK`
and `pos + n` is representable, pull returns `n` and the cursor becomes
`pos + n`.  (2) If it signals a short read and `size - pos` fits in an `int`,
pull returns `size - pos` when `pos < size` and 0 when `pos >= size`, and the
cursor advances by the amount returned (to `size`, or not at all).  The
condition `pos + n > size` that the code asserts makes `size - pos` fit, and
under it the amount returned is at most `n`, and strictly less when `n > 0`.
(3) On any other store result pull returns `-1` and the handle is unchanged.
No field other than the cursor is ever modified. -/
theorem ZSTD_seekable_read_sqlite3_file_pull (xRead : XRead) (p : zstd_ro_file)
    (buffer : List Nat) (n : Nat)
    (hn : (n : Int) ≤ INT_MAX)
    (hpos : INT64_MIN ≤ p.origfile_pos ∧ p.origfile_pos ≤ INT64_MAX)
    (hsize : INT64_MIN ≤ p.origfile_size ∧ p.origfile_size ≤ INT64_MAX) :
    let rc := (xRead buffer n p.origfile_pos).1
    let out := ZSTD_seekable_read_sqlite3_file xRead p buffer n
    out.calls = [Call.xRead n p.origfile_pos] ∧
    out.buffer = (xRead buffer n p.origfile_pos).2 ∧
    out.file = { p with origfile_pos := out.file.origfile_pos } ∧
    (rc = SQLITE_OK → p.origfile_pos + n ≤ INT64_MAX →
      out.ret = n ∧ out.file.origfile_pos = p.origfile_pos + n) ∧
    (rc = SQLITE_IOERR_SHORT_READ → p.origfile_size - p.origfile_pos ≤ INT_MAX →
      (p.origfile_pos < p.origfile_size →
        out.ret = p.origfile_size - p.origfile_pos ∧ out.file.origfile_pos = p.origfile_size) ∧
      (p.origfile_size ≤ p.origfile_pos →
        out.ret = 0 ∧ out.file.origfile_pos = p.origfile_pos) ∧
      out.file.origfile_pos = p.origfile_pos + out.ret) ∧
    (rc = SQLITE_IOERR_SHORT_READ → p.origfile_pos + n > p.origfile_size →
      p.origfile_size - p.origfile_pos ≤ INT_MAX ∧ out.ret ≤ n ∧ (0 < n → out.ret < n)) ∧
    (rc ≠ SQLITE_OK → rc ≠ SQLITE_IOERR_SHORT_READ → out.ret = -1 ∧ out.file = p) := by
  intro rc out
  obtain ⟨hp0, hp1⟩ := hpos
  obtain ⟨hs0, hs1⟩ := hsize
  have hn32 : toInt32 (n : Int) = n := toInt32_of_range _ (by omega) hn
  have hI : INT_MAX = 2147483647 := rfl
  have hm : INT64_MIN = -9223372036854775808 := rfl
  have hM : INT64_MAX = 9223372036854775807 := rfl
  have hne : SQLITE_OK ≠ SQLITE_IOERR_SHORT_READ := by decide
  have hrc : rc = (xRead buffer n p.origfile_pos).1 := rfl
  have hout : out = ZSTD_seekable_read_sqlite3_file xRead p buffer n := rfl
  unfold ZSTD_seekable_read_sqlite3_file at hout
  simp only [hn32] at hout
  rw [← hrc] at hout
  -- the short-read branch, once `size - pos` fits in an `int`
  have hshort : rc = SQLITE_IOERR_SHORT_READ → p.origfile_size - p.origfile_pos ≤ INT_MAX →
      (p.origfile_pos < p.origfile_size →
        out.ret = p.origfile_size - p.origfile_pos ∧ out.file.origfile_pos = p.origfile_size) ∧
      (p.origfile_size ≤ p.origfile_pos →
        out.ret = 0 ∧ out.file.origfile_pos = p.origfile_pos) := by
    intro h hfit
    rw [if_pos h] at hout
    constructor
    · intro hlt
      rw [if_pos hlt] at hout
      have e1 : toInt64 (p.origfile_size - p.origfile_pos) = p.origfile_size - p.origfile_pos :=
        toInt64_of_range _ (by omega) (by omega)
      have e2 : toInt32 (p.origfile_size - p.origfile_pos) = p.origfile_size - p.origfile_pos :=
        toInt32_of_range _ (by omega) hfit
      have e3 : toInt64 (p.origfile_pos + (p.origfile_size - p.origfile_pos)) = p.origfile_size := by
        rw [show p.origfile_pos + (p.origfile_size - p.origfile_pos) = p.origfile_size by omega]
        exact toInt64_of_range _ hs0 hs1
      rw [e1, e2, e3] at hout
      rw [hout]
      exact ⟨rfl, rfl⟩
    · intro hge
      rw [if_neg (by omega)] at hout
      have e2 : toInt32 0 = 0 := by decide
      have e3 : toInt64 (p.origfile_pos + 0) = p.origfile_pos := by
        rw [Int.add_zero]
        exact toInt64_of_range _ hp0 hp1
      rw [e2, e3] at hout
      rw [hout]
      exact ⟨rfl, rfl⟩
  refine ⟨?_, ?_, ?_, ?_, ?_, ?_, ?_⟩
  · rw [hout]; split_ifs <;> rfl
  · rw [hout]; split_ifs <;> rfl
  · rw [hout]; split_ifs <;> rfl
  · intro h hrep
    rw [if_neg (by rw [h]; exact hne), if_pos h] at hout
    have e : toInt64 (p.origfile_pos + n) = p.origfile_pos + n :=
      toInt64_of_range _ (by omega) hrep
    rw [e] at hout
    rw [hout]
    exact ⟨rfl, rfl⟩
  · intro h hfit
    obtain ⟨a, b⟩ := hshort h hfit
    refine ⟨a, b, ?_⟩
    rcases lt_or_le p.origfile_pos p.origfile_size with hlt | hge
    · obtain ⟨r1, r2⟩ := a hlt
      rw [r1, r2]; omega
    · obtain ⟨r1, r2⟩ := b hge
      rw [r1, r2]; omega
  · intro h hassert
    have hfit : p.origfile_size - p.origfile_pos ≤ INT_MAX := by omega
    obtain ⟨a, b⟩ := hshort h hfit
    refine ⟨hfit, ?_, ?_⟩
    · rcases lt_or_le p.origfile_pos p.origfile_size with hlt | hge
      · rw [(a hlt).1]; omega
      · rw [(b hge).1]; omega
    · intro hn0
      rcases lt_or_le p.origfile_pos p.origfile_size with hlt | hge
      · rw [(a hlt).1]; omega
      · rw [(b hge).1]; exact_mod_cast hn0
  · intro h1 h2
    rw [if_neg h2, if_neg h1] at hout
    rw [hout]
    exact ⟨rfl, rfl⟩

/-- Witness for C8 (amended): with the cursor at 36 of a 40-byte store, a
10-byte request answered by a short read returns 4 and moves the cursor to 40. -/
theorem ZSTD_seekable_read_sqlite3_file_pull_witness :
    (ZSTD_seekable_read_sqlite3_file shortXRead
        ⟨true, some ⟨true⟩, 40, 36, none⟩ [9, 9] 10).ret = 40 - 36 ∧
    (ZSTD_seekable_read_sqlite3_file shortXRead
        ⟨true, some ⟨true⟩, 40, 36, none⟩ [9, 9] 10).file.origfile_pos = 40 :=
  ((ZSTD_seekable_read_sqlite3_file_pull shortXRead
      ⟨true, some ⟨true⟩, 40, 36, none⟩ [9, 9] 10
      (by decide) (by decide) (by decide)).2.2.2.2.1 (by decide) (by decide)).1 (by decide)

/-- What `ZSTD_seekable_seek_sqlite3_file` does once the base of the origin
is known and `base + delta` is a signed 64-bit value. -/
theorem seek_of_base (p : zstd_ro_file) (delta origin b : Int)
    (hb : seekBase p origin = some b)
    (hrep : INT64_MIN ≤ b + delta ∧ b + delta ≤ INT64_MAX) :
    ZSTD_seekable_seek_sqlite3_file p delta origin =
      if 0 ≤ b + delta then (0, { p with origfile_pos := b + delta }) else (-1, p) := by
  have e := toInt64_of_range (b + delta) hrep.1 hrep.2
  have d01 : SEEK_SET ≠ SEEK_CUR := by decide
  have d02 : SEEK_SET ≠ SEEK_END := by decide
  have d12 : SEEK_CUR ≠ SEEK_END := by decide
  unfold seekBase at hb
  unfold ZSTD_seekable_seek_sqlite3_file
  by_cases h0 : origin = SEEK_SET
  · subst h0
    rw [if_pos rfl] at hb
    obtain rfl := Option.some.inj hb
    rw [Int.zero_add]
    by_cases hd : 0 ≤ delta
    · simp [hd]
    · simp [hd, d01, d02]
  · rw [if_neg h0] at hb
    by_cases h1 : origin = SEEK_CUR
    · subst h1
      rw [if_pos rfl] at hb
      obtain rfl := Option.some.inj hb
      simp only [e]
      by_cases hd : 0 ≤ p.origfile_pos + delta
      · simp [hd, d01.symm]
      · simp [hd, d01.symm, d12]
    · rw [if_neg h1] at hb
      by_cases h2 : origin = SEEK_END
      · subst h2
        rw [if_pos rfl] at hb
        obtain rfl := Option.some.inj hb
        simp only [e]
        by_cases hd : 0 ≤ p.origfile_size + delta
        · simp [hd, d02.symm, d12.symm]
        · simp [hd, d02.symm, d12.symm]
      · rw [if_neg h2] at hb
        exact absurd hb (by simp)

/-- With an origin that is none of the three, the reposition fails and the
handle is returned as it was. -/
theorem seek_of_bad_origin (p : zstd_ro_file) (delta origin : Int)
    (hb : seekBase p origin = none) :
    ZSTD_seekable_seek_sqlite3_file p delta origin = (-1, p) := by
  unfold seekBase at hb
  unfold ZSTD_seekable_seek_sqlite3_file
  by_cases h0 : origin = SEEK_SET
  · rw [if_pos h0] at hb; exact absurd hb (by simp)
  · rw [if_neg h0] at hb
    by_cases h1 : origin = SEEK_CUR
    · rw [if_pos h1] at hb; exact absurd hb (by simp)
    · rw [if_neg h1] at hb
      by_cases h2 : origin = SEEK_END
      · rw [if_pos h2] at hb; exact absurd hb (by simp)
      · simp [h0, h1, h2]

/-- Every field but the cursor survives a reposition, and a successful one
leaves a cursor that is not negative. -/
theorem seek_frame (p : zstd_ro_file) (delta origin : Int) :
    (ZSTD_seekable_seek_sqlite3_file p delta origin).2
      = { p with origfile_pos := (ZSTD_seekable_seek_sqlite3_file p delta origin).2.origfile_pos } ∧
    ((ZSTD_seekable_seek_sqlite3_file p delta origin).1 = 0 ∨
      (ZSTD_seekable_seek_sqlite3_file p delta origin).1 = -1) ∧
    ((ZSTD_seekable_seek_sqlite3_file p delta origin).1 = 0 →
      0 ≤ (ZSTD_seekable_seek_sqlite3_file p delta origin).2.origfile_pos) := by
  unfold ZSTD_seekable_seek_sqlite3_file
  split_ifs with h1 h2 h3
  · exact ⟨rfl, Or.inl rfl, fun _ => h1.2⟩
  · exact ⟨rfl, Or.inl rfl, fun _ => h2.2⟩
  · exact ⟨rfl, Or.inl rfl, fun _ => h3.2⟩
  · have hne : (-1 : Int) ≠ 0 := by decide
    exact ⟨rfl, Or.inr rfl, fun h => absurd h hne⟩

/-- C9: reposition.  With `base` 0 for `SEEK_SET`, the cursor for `SEEK_CUR`
and the memoised store length for `SEEK_END`, and `base + delta` a signed
64-bit value: if `base + delta >= 0` the call returns 0 and the cursor becomes
`base + delta`; if `base + delta < 0` the call returns `-1` and the cursor is
unchanged; if the origin is none of the three the call returns `-1` and the
cursor is unchanged.  No field other than the cursor is modified. -/
theorem ZSTD_seekable_seek_sqlite3_file_reposition (p : zstd_ro_file) (delta origin : Int)
    (hrep : ∀ base, seekBase p origin = some base →
      INT64_MIN ≤ base + delta ∧ base + delta ≤ INT64_MAX) :
    let out := ZSTD_seekable_seek_sqlite3_file p delta origin
    (∀ base, seekBase p origin = some base → 0 ≤ base + delta →
      out.1 = 0 ∧ out.2.origfile_pos = base + delta) ∧
    (∀ base, seekBase p origin = some base → base + delta < 0 →
      out.1 = -1 ∧ out.2.origfile_pos = p.origfile_pos) ∧
    (seekBase p origin = none → out.1 = -1 ∧ out.2.origfile_pos = p.origfile_pos) ∧
    out.2.base_pMethods = p.base_pMethods ∧ out.2.origfile = p.origfile ∧
    out.2.origfile_size = p.origfile_size ∧ out.2.decompressor = p.decompressor := by
  intro out
  have hf := (seek_frame p delta origin).1
  refine ⟨?_, ?_, ?_, ?_, ?_, ?_, ?_⟩
  · intro base hb hnn
    have e : out = _ := seek_of_base p delta origin base hb (hrep base hb)
    rw [e, if_pos hnn]
    exact ⟨rfl, rfl⟩
  · intro base hb hneg
    have e : out = _ := seek_of_base p delta origin base hb (hrep base hb)
    rw [e, if_neg (by omega)]
    exact ⟨rfl, rfl⟩
  · intro hb
    have e : out = _ := seek_of_bad_origin p delta origin hb
    rw [e]
    exact ⟨rfl, rfl⟩
  · show (ZSTD_seekable_seek_sqlite3_file p delta origin).2.base_pMethods = _
    rw [hf]
  · show (ZSTD_seekable_seek_sqlite3_file p delta origin).2.origfile = _
    rw [hf]
  · show (ZSTD_seekable_seek_sqlite3_file p delta origin).2.origfile_size = _
    rw [hf]
  · show (ZSTD_seekable_seek_sqlite3_file p delta origin).2.decompressor = _
    rw [hf]

/-- Witness for C9: from the end of a 40-byte store, `delta = -8` lands on
32, and `delta = -41` fails and leaves the cursor at 0. -/
theorem ZSTD_seekable_seek_sqlite3_file_reposition_witness :
    (ZSTD_seekable_seek_sqlite3_file smallFile (-8) SEEK_END).1 = 0 ∧
    (ZSTD_seekable_seek_sqlite3_file smallFile (-8) SEEK_END).2.origfile_pos = 40 + -8 ∧
    (ZSTD_seekable_seek_sqlite3_file smallFile (-41) SEEK_END).1 = -1 ∧
    (ZSTD_seekable_seek_sqlite3_file smallFile (-41) SEEK_END).2.origfile_pos = 0 :=
  have hb : seekBase smallFile SEEK_END = some 40 := by decide
  have h1 := (ZSTD_seekable_seek_sqlite3_file_reposition smallFile (-8) SEEK_END
    (fun base h => by
      obtain rfl : (40 : Int) = base := Option.some.inj (hb.symm.trans h)
      decide)).1 40 hb (by decide)
  have h2 := (ZSTD_seekable_seek_sqlite3_file_reposition smallFile (-41) SEEK_END
    (fun base h => by
      obtain rfl : (40 : Int) = base := Option.some.inj (hb.symm.trans h)
      decide)).2.1 40 hb (by decide)
  ⟨h1.1, h1.2, h2.1, h2.2⟩

/-- C10 (as stated) fails: on a 40-byte store, `SEEK_SET` with `delta = 41`
and `SEEK_END` with `delta = 1` both succeed and leave the cursor at 41,
outside `[0, 40]`. -/
theorem ZSTD_seekable_seek_sqlite3_file_past_end :
    smallFile.origfile_size = 40 ∧
    (ZSTD_seekable_seek_sqlite3_file smallFile 41 SEEK_SET).1 = 0 ∧
    (ZSTD_seekable_seek_sqlite3_file smallFile 41 SEEK_SET).2.origfile_pos = 41 ∧
    (ZSTD_seekable_seek_sqlite3_file smallFile 1 SEEK_END).1 = 0 ∧
    (ZSTD_seekable_seek_sqlite3_file smallFile 1 SEEK_END).2.origfile_pos = 41 ∧
    ¬ ((ZSTD_seekable_seek_sqlite3_file smallFile 41 SEEK_SET).2.origfile_pos
        ≤ smallFile.origfile_size) := by
  decide

/-- C10 (amended): the cursor is bounded below only.  If a reposition
succeeds the resulting cursor is `>= 0`; a request whose target position
(`base + delta`, a signed 64-bit value) is negative returns failure; a
request whose target is `>= 0` succeeds and lands on it, also when it lies
beyond the store length `L`. -/
theorem ZSTD_seekable_seek_sqlite3_file_cursor_nonneg (p : zstd_ro_file)
    (delta origin : Int) (L : Int) (hL : p.origfile_size = L) (hL0 : 0 ≤ L) :
    let out := ZSTD_seekable_seek_sqlite3_file p delta origin
    (out.1 = 0 → 0 ≤ out.2.origfile_pos) ∧
    (∀ base, seekBase p origin = some base →
      INT64_MIN ≤ base + delta → base + delta < 0 → out.1 = -1) ∧
    (∀ base, seekBase p origin = some base →
      0 ≤ base + delta → base + delta ≤ INT64_MAX →
      out.1 = 0 ∧ out.2.origfile_pos = base + delta) ∧
    (0 ≤ delta → delta ≤ INT64_MAX - L → origin = SEEK_END →
      out.1 = 0 ∧ out.2.origfile_pos = L + delta ∧ L ≤ out.2.origfile_pos) := by
  intro out
  have hm : INT64_MIN = -9223372036854775808 := rfl
  have hM : INT64_MAX = 9223372036854775807 := rfl
  have hpos : ∀ base, seekBase p origin = some base →
      0 ≤ base + delta → base + delta ≤ INT64_MAX →
      out.1 = 0 ∧ out.2.origfile_pos = base + delta := by
    intro base hb h0 h1
    have e : out = _ := seek_of_base p delta origin base hb ⟨by omega, h1⟩
    rw [e, if_pos h0]
    exact ⟨rfl, rfl⟩
  refine ⟨(seek_frame p delta origin).2.2, ?_, hpos, ?_⟩
  · intro base hb h0 h1
    have e : out = _ := seek_of_base p delta origin base hb ⟨h0, by omega⟩
    rw [e, if_neg (by omega)]
  · intro hd0 hd1 ho
    have hb : seekBase p origin = some L := by
      rw [ho, ← hL]
      unfold seekBase
      rw [if_neg (by decide), if_neg (by decide), if_pos rfl]
    obtain ⟨a, b⟩ := hpos L hb (by omega) (by omega)
    exact ⟨a, b, by rw [b]; omega⟩

/-- Witness for C10 (amended): on a 40-byte store, seeking one byte past the
end succeeds with the cursor at 41. -/
theorem ZSTD_seekable_seek_sqlite3_file_cursor_nonneg_witness :
    (ZSTD_seekable_seek_sqlite3_file smallFile 1 SEEK_END).1 = 0 ∧
    (ZSTD_seekable_seek_sqlite3_file smallFile 1 SEEK_END).2.origfile_pos = 40 + 1 ∧
    (40 : Int) ≤ (ZSTD_seekable_seek_sqlite3_file smallFile 1 SEEK_END).2.origfile_pos :=
  (ZSTD_seekable_seek_sqlite3_file_cursor_nonneg smallFile 1 SEEK_END 40
    (by decide) (by decide)).2.2.2 (by decide) (by decide) rfl

end ZstdRoVfs
